import Mathlib

/-!
Shallow embedding of the Metrics Reduction & Cross-Day Aggregation Engine
of the apple-health-mcp repository (src/api/ingest.py and src/api/mcp.py).

Python numbers are modelled as rationals (ℚ); Python `round` (banker's
rounding, round-half-to-even) is modelled exactly on ℚ.  Python dicts are
modelled as association lists with first-match lookup; JSON values as the
inductive type `J`.  Operations that can raise a Python exception on
ill-typed stored data (attribute/containment access on a non-dict,
arithmetic on non-numbers) return `Except Unit _`, with `.error ()`
standing for the raised exception.
-/

namespace HealthMCP

/-- Python 3 `round(q)` on an exact rational: round half to even. -/
def pyRound (q : ℚ) : ℤ :=
  let f := ⌊q⌋
  let r := q - f
  if r < 1/2 then f
  else if r > 1/2 then f + 1
  else if f % 2 = 0 then f else f + 1

/-- Python `round(q, 1)`. -/
def pyRound1 (q : ℚ) : ℚ := (pyRound (q * 10) : ℚ) / 10

/-- Python `round(q, 2)`. -/
def pyRound2 (q : ℚ) : ℚ := (pyRound (q * 100) : ℚ) / 100

/-- A parsed sample atom: `parse_values` produces floats and strings. -/
inductive Atom where
  | num (q : ℚ)
  | str (s : String)
  deriving DecidableEq, Repr

/-- `[v for v in values if isinstance(v, (int, float))]`. -/
def numsOf (values : List Atom) : List ℚ :=
  values.filterMap fun a => match a with
    | .num q => some q
    | .str _ => none

/-- Python `min(list)` (list known non-empty; 0 as junk value on `[]`). -/
def listMin : List ℚ → ℚ
  | [] => 0
  | x :: xs => xs.foldl min x

/-- Python `max(list)` (list known non-empty; 0 as junk value on `[]`). -/
def listMax : List ℚ → ℚ
  | [] => 0
  | x :: xs => xs.foldl max x

/-! ## ingest.py: compute_hr_zones -/

/-- The five HR-zone counters of `compute_hr_zones`. -/
structure Zones where
  rest : ℕ
  light : ℕ
  moderate : ℕ
  hard : ℕ
  max : ℕ
  deriving DecidableEq, Repr

/-- The `zone_pct` dict: each bucket's rounded percentage. -/
structure ZonePct where
  rest : ℤ
  light : ℤ
  moderate : ℤ
  hard : ℤ
  max : ℤ
  deriving DecidableEq, Repr

/-- The non-empty result dict of `compute_hr_zones`. -/
structure HRZoneSummary where
  zones : Zones
  zone_pct : ZonePct
  training_load : ℕ
  high_intensity : ℕ
  deriving DecidableEq, Repr

/-- One iteration of the `for hr in nums` loop of `compute_hr_zones`. -/
def bucketStep (z : Zones) (hr : ℚ) : Zones :=
  if hr < 100 then { z with rest := z.rest + 1 }
  else if hr < 120 then { z with light := z.light + 1 }
  else if hr < 140 then { z with moderate := z.moderate + 1 }
  else if hr < 160 then { z with hard := z.hard + 1 }
  else { z with max := z.max + 1 }

/-- `compute_hr_zones(values)`: `none` models the empty dict returned when
no numeric values are present. -/
def compute_hr_zones (values : List Atom) : Option HRZoneSummary :=
  let nums := numsOf values
  if nums = [] then none
  else
    let zones := nums.foldl bucketStep ⟨0, 0, 0, 0, 0⟩
    let total : ℚ := nums.length
    some
      { zones := zones
        zone_pct :=
          ⟨pyRound (zones.rest / total * 100), pyRound (zones.light / total * 100),
           pyRound (zones.moderate / total * 100), pyRound (zones.hard / total * 100),
           pyRound (zones.max / total * 100)⟩
        training_load := zones.moderate + zones.hard + zones.max
        high_intensity := zones.hard + zones.max }

/-! ## ingest.py: compute_sleep_stats -/

/-- `listIsPrefix pat s`: `pat` is a prefix of the character list `s`. -/
def listIsPrefix : List Char → List Char → Bool
  | [], _ => true
  | _ :: _, [] => false
  | a :: as, b :: bs => a == b && listIsPrefix as bs

/-- `containsSub pat s`: `pat` occurs as a contiguous substring of `s`
(Python's `pat in s` on strings). -/
def containsSub (pat : List Char) : List Char → Bool
  | [] => listIsPrefix pat []
  | c :: rest => listIsPrefix pat (c :: rest) || containsSub pat rest

/-- Python `pat in s` for strings. -/
def strHas (s pat : String) : Bool := containsSub pat.data s.data

/-- The four sleep-stage counters of `compute_sleep_stats`. -/
structure Stages where
  rem : ℕ
  core : ℕ
  deep : ℕ
  awake : ℕ
  deriving DecidableEq, Repr

/-- One iteration of the `for v in values` loop of `compute_sleep_stats`. -/
def sleepStep (st : Stages) (v : Atom) : Stages :=
  match v with
  | .num _ => st
  | .str s =>
    if strHas s "REM" then { st with rem := st.rem + 1 }
    else if strHas s "Core" || strHas s "Light" then { st with core := st.core + 1 }
    else if strHas s "Deep" then { st with deep := st.deep + 1 }
    else if strHas s "Awake" || strHas s "Wake" then { st with awake := st.awake + 1 }
    else st

/-- Result of `compute_sleep_stats`: either the `{values: ...}` verbatim
fallback or the full stats dict. -/
inductive SleepOut where
  | values (vs : List Atom)
  | stats (stages : Stages) (fragmentation_pct : ℚ) (quality : String)
      (has_rem : Bool) (has_deep : Bool)
  deriving DecidableEq, Repr

/-- `compute_sleep_stats(values)`. -/
def compute_sleep_stats (values : List Atom) : SleepOut :=
  let stages := values.foldl sleepStep ⟨0, 0, 0, 0⟩
  let total := stages.rem + stages.core + stages.deep + stages.awake
  if total = 0 then .values values
  else
    let fragmentation := pyRound1 ((stages.awake : ℚ) / (total : ℚ) * 100)
    let quality : String :=
      if fragmentation < 20 ∧ 0 < stages.rem ∧ 0 < stages.deep then "good"
      else if fragmentation < 35 then "fair" else "poor"
    .stats stages fragmentation quality (decide (0 < stages.rem)) (decide (0 < stages.deep))

/-! ## ingest.py: compute_stats -/

/-- Python `str.lower()` on one character (ASCII range; metric names here
are plain ASCII field names). -/
def pyLowerChar (c : Char) : Char :=
  if 'A' ≤ c ∧ c ≤ 'Z' then Char.ofNat (c.toNat + 32) else c

/-- Python `str.lower()` (ASCII). -/
def pyLower (s : List Char) : List Char := s.map pyLowerChar

/-- The characters Python `str.strip()` removes. -/
def pyWhitespace (c : Char) : Bool :=
  c == ' ' || c == '\t' || c == '\n' || c == '\r' || c == '\x0b' || c == '\x0c'

/-- Python `str.strip()`. -/
def pyStrip (s : List Char) : List Char :=
  ((s.dropWhile pyWhitespace).reverse.dropWhile pyWhitespace).reverse

/-- Result of `compute_stats`: the sleep dispatch, the degenerate
`{count: n}` dict, or the numeric `{avg, min, max, count}` dict with an
optional attached `hr_zones` entry (itself the possibly-empty dict of
`compute_hr_zones`). -/
inductive StatsOut where
  | sleepRes (s : SleepOut)
  | degenerate (count : ℕ)
  | numeric (avg mn mx : ℚ) (count : ℕ) (hr_zones : Option (Option HRZoneSummary))
  deriving DecidableEq, Repr

/-- `compute_stats(values, key)`. -/
def compute_stats (values : List Atom) (key : String) : StatsOut :=
  let key_lower := pyStrip (pyLower key.data)
  if key_lower = "sleep".data then .sleepRes (compute_sleep_stats values)
  else
    let nums := numsOf values
    if nums = [] then .degenerate values.length
    else
      .numeric (pyRound2 (nums.sum / (nums.length : ℚ))) (pyRound2 (listMin nums))
        (pyRound2 (listMax nums)) nums.length
        (if key_lower = "heartrate".data then some (compute_hr_zones (nums.map Atom.num))
         else none)

/-- A sleep stage label. -/
inductive Stage where
  | REM
  | Core
  | Deep
  | Awake
  deriving DecidableEq, Repr

/-- The stage an atom is counted under: the substring checks of the
`compute_sleep_stats` loop, first match wins; `none` for unmatched text
and for numeric atoms. -/
def classifyAtom : Atom → Option Stage
  | .num _ => none
  | .str s =>
    if strHas s "REM" then some .REM
    else if strHas s "Core" || strHas s "Light" then some .Core
    else if strHas s "Deep" then some .Deep
    else if strHas s "Awake" || strHas s "Wake" then some .Awake
    else none

/-! ## mcp.py: JSON values and dict helpers

Stored snapshots are JSON documents.  A Python `dict` is an association
list with first-match lookup (real dicts have unique keys, so first-match
lookup agrees).  Operations that would raise on ill-typed stored data
(`.get`/`in`/indexing on a non-dict, arithmetic on a non-number) return
`.error ()`; no snapshot written by ingest.py is of such a shape. -/

/-- A JSON value. -/
inductive J where
  | null
  | bool (b : Bool)
  | num (q : ℚ)
  | str (s : String)
  | arr (xs : List J)
  | obj (fields : List (String × J))

/-- A JSON object / Python dict, as an association list. -/
abbrev Dict := List (String × J)

/-- `d[k]` when present. -/
def jlookup (d : Dict) (k : String) : Option J :=
  (d.find? fun p => p.1 == k).map (·.2)

/-- Python truthiness of a JSON value. -/
def truthy : J → Bool
  | .null => false
  | .bool b => b
  | .num q => decide (q ≠ 0)
  | .str s => decide (s ≠ "")
  | .arr [] => false
  | .arr (_ :: _) => true
  | .obj [] => false
  | .obj (_ :: _) => true

/-- A JSON value used where Python needs a dict (`.get`, `in`, indexing):
non-dicts raise, modelled as `.error ()`. -/
def dictOf : J → Except Unit Dict
  | .obj f => .ok f
  | _ => .error ()

/-- Python `data.get(k, {})` followed by use as a dict. -/
def dictGet (d : Dict) (k : String) : Except Unit Dict :=
  match jlookup d k with
  | none => .ok []
  | some v => dictOf v

/-- Python `f.get(k)`: the stored value, or `None`. -/
def jgetOrNull (f : Dict) (k : String) : J :=
  (jlookup f k).getD J.null

/-- A JSON value used where Python needs a number (sum, round, division):
`True`/`False` count as 1/0 (bool is an int in Python); anything else
raises, modelled as `.error ()`. -/
def qOfJ : J → Except Unit ℚ
  | .num q => .ok q
  | .bool b => .ok (if b then 1 else 0)
  | _ => .error ()

/-! ## mcp.py: get_cumulative_value -/

/-- `get_cumulative_value(data, key)`: new-shape `total` passthrough, else
old-shape `round(avg * count)`, else 0; an empty/missing metric gives 0. -/
def get_cumulative_value (data : Dict) (key : String) : Except Unit J :=
  let metric := (jlookup data key).getD (J.obj [])
  if truthy metric = false then .ok (J.num 0)
  else
    match metric with
    | J.obj fields =>
      match jlookup fields "total" with
      | some t => .ok t
      | none =>
        match jlookup fields "avg", jlookup fields "count" with
        | some a, some c =>
          match qOfJ a, qOfJ c with
          | .ok qa, .ok qc => .ok (J.num (pyRound (qa * qc)))
          | _, _ => .error ()
        | _, _ => .ok (J.num 0)
    | _ => .error ()

/-! ## mcp.py: get_hrv_baseline

Dates are modelled as day offsets from today: `store i` is the parsed
snapshot stored under the key for `today - i days` (`[]` when absent or
empty, as `get_health_data` returns `{}` then). -/

/-- The HRV baseline dict `{baseline, days}` (`baseline = none` models
`None`). -/
structure Baseline where
  baseline : Option ℚ
  days : ℕ
  deriving DecidableEq, Repr

/-- One day of the baseline loop: the `hrv.avg` value appended when
`data and "hrv" in data and data["hrv"].get("avg")` holds. -/
def hrvStepValue (data : Dict) : Except Unit (Option J) :=
  match data with
  | [] => .ok none
  | _ :: _ =>
    match jlookup data "hrv" with
    | none => .ok none
    | some hv =>
      match dictOf hv with
      | .error e => .error e
      | .ok hf =>
        let a := jgetOrNull hf "avg"
        .ok (if truthy a then some a else none)

/-- The `hrv_values` list collected over the given day offsets. -/
def collect_hrv (store : ℕ → Dict) : List ℕ → Except Unit (List J)
  | [] => .ok []
  | i :: rest =>
    match hrvStepValue (store i) with
    | .error e => .error e
    | .ok none => collect_hrv store rest
    | .ok (some a) =>
      match collect_hrv store rest with
      | .error e => .error e
      | .ok rs => .ok (a :: rs)

/-- Python `sum` over a list of JSON values: all must be numbers. -/
def qListOf : List J → Except Unit (List ℚ)
  | [] => .ok []
  | v :: vs =>
    match qOfJ v, qListOf vs with
    | .ok q, .ok qs => .ok (q :: qs)
    | _, _ => .error ()

/-- `get_hrv_baseline(days)`: the window is `today - 1` through
`today - days` (today excluded). -/
def get_hrv_baseline (store : ℕ → Dict) (days : ℕ) : Except Unit Baseline :=
  match collect_hrv store ((List.range days).map (· + 1)) with
  | .error e => .error e
  | .ok [] => .ok ⟨none, 0⟩
  | .ok (v :: vs) =>
    match qListOf (v :: vs) with
    | .error e => .error e
    | .ok qs => .ok ⟨some (pyRound1 (qs.sum / (qs.length : ℚ))), (v :: vs).length⟩

/-- The truthy `hrv.avg` value one day of the baseline loop contributes
(requires a well-formed `hrv` entry): the specification-level view of
`hrvStepValue`. -/
def hrvAvgOf (data : Dict) : Option J :=
  match data with
  | [] => none
  | _ :: _ =>
    match jlookup data "hrv" with
    | some (J.obj hf) =>
      let a := jgetOrNull hf "avg"
      if truthy a then some a else none
    | _ => none

/-! ## mcp.py: tool_get_today -/

/-- Result of `tool_get_today`: the "No data synced today" error payload or
the raw snapshot verbatim. -/
inductive TodayOut where
  | noData
  | data (d : Dict)

/-- `tool_get_today()`. -/
def tool_get_today (store : ℕ → Dict) : TodayOut :=
  match store 0 with
  | [] => .noData
  | p :: rest => .data (p :: rest)

/-! ## mcp.py: tool_get_trends -/

/-- The `sleep` sub-dict appended to a trend row when the snapshot has a
`sleep` entry. -/
def trend_day_sleep (data : Dict) (d : Dict) : Except Unit Dict :=
  match jlookup data "sleep" with
  | none => .ok d
  | some sv =>
    match dictOf sv with
    | .error e => .error e
    | .ok slD =>
      .ok (d ++ [("sleep", J.obj
        [("fragmentation_pct", jgetOrNull slD "fragmentation_pct"),
         ("has_deep", jgetOrNull slD "has_deep"),
         ("has_rem", jgetOrNull slD "has_rem")])])

/-- The `day_data` dict `tool_get_trends` builds for one (non-empty)
snapshot. -/
def trend_day (data : Dict) : Except Unit Dict :=
  match dictGet data "hrv", dictGet data "heartRate" with
  | .ok hrvD, .ok hrD =>
    match get_cumulative_value data "exercise", get_cumulative_value data "steps" with
    | .ok ex, .ok st =>
      let d0 : Dict := [("hrv", jgetOrNull hrvD "avg"),
                        ("resting_hr", jgetOrNull hrD "min"),
                        ("exercise_min", ex), ("steps", st)]
      if (jlookup data "heartRate").isSome && (jlookup hrD "hr_zones").isSome then
        match dictOf (jgetOrNull hrD "hr_zones") with
        | .error e => .error e
        | .ok hzD => trend_day_sleep data (d0 ++ [("hr_zones", jgetOrNull hzD "zone_pct")])
      else trend_day_sleep data d0
    | .error e, _ => .error e
    | _, .error e => .error e
  | .error e, _ => .error e
  | _, .error e => .error e

/-- The `results` rows of `tool_get_trends` over the given day offsets:
a day is included iff its snapshot is a non-empty dict. -/
def collect_trend_rows (store : ℕ → Dict) : List ℕ → Except Unit (List (ℕ × Dict))
  | [] => .ok []
  | i :: rest =>
    match store i with
    | [] => collect_trend_rows store rest
    | p :: ps =>
      match trend_day (p :: ps) with
      | .error e => .error e
      | .ok dd =>
        match collect_trend_rows store rest with
        | .error e => .error e
        | .ok rs => .ok ((i, dd) :: rs)

/-- Result of `tool_get_trends`: the per-day table, or the
`"No data for last {days} days."` error payload. -/
inductive TrendsOut where
  | table (rows : List (ℕ × Dict))
  | noData (days : ℕ)

/-- `tool_get_trends(days)` (default 7): offsets `0 .. days-1`. -/
def tool_get_trends (store : ℕ → Dict) (days : ℕ) : Except Unit TrendsOut :=
  match collect_trend_rows store (List.range days) with
  | .error e => .error e
  | .ok [] => .ok (.noData days)
  | .ok (r :: rs) => .ok (.table (r :: rs))

/-! ## mcp.py: get_day_summary -/

/-- The `hrv` field of `get_day_summary` (`round(avg, 1)` when truthy). -/
def day_summary_hrv (data : Dict) : Except Unit Dict :=
  match jlookup data "hrv" with
  | none => .ok []
  | some hv =>
    match dictOf hv with
    | .error e => .error e
    | .ok hf =>
      let a := jgetOrNull hf "avg"
      if truthy a then
        match qOfJ a with
        | .error e => .error e
        | .ok q => .ok [("hrv", J.num (pyRound1 q))]
      else .ok []

/-- The `hr_zones` field of `get_day_summary`. -/
def day_summary_zones (data : Dict) : Except Unit Dict :=
  match jlookup data "heartRate" with
  | none => .ok []
  | some hv =>
    match dictOf hv with
    | .error e => .error e
    | .ok hf =>
      match jlookup hf "hr_zones" with
      | none => .ok []
      | some hz =>
        match dictOf hz with
        | .error e => .error e
        | .ok hzf => .ok [("hr_zones", jgetOrNull hzf "zone_pct")]

/-- The `exercise_min` field of `get_day_summary` (and of
`tool_get_recovery_status`), emitted only when the key is present. -/
def summary_cumulative (data : Dict) (storeKey outKey : String) : Except Unit Dict :=
  if (jlookup data storeKey).isSome then
    match get_cumulative_value data storeKey with
    | .error e => .error e
    | .ok v => .ok [(outKey, v)]
  else .ok []

/-- `get_day_summary(data)`: `none` models the `None` returned for an
empty snapshot or a summary with no populated field. -/
def get_day_summary (data : Dict) : Except Unit (Option Dict) :=
  match data with
  | [] => .ok none
  | _ :: _ =>
    match day_summary_hrv data, day_summary_zones data,
          summary_cumulative data "exercise" "exercise_min" with
    | .ok s1, .ok s2, .ok s3 =>
      match s1 ++ s2 ++ s3 with
      | [] => .ok none
      | p :: ps => .ok (some (p :: ps))
    | .error e, _, _ => .error e
    | _, .error e, _ => .error e
    | _, _, .error e => .error e

/-! ## mcp.py: tool_get_recovery_status -/

/-- The `hrv` block of the recovery status (today's value, baseline, and
`vs_baseline_pct` when a truthy baseline exists). -/
def recovery_hrv_field (data : Dict) (bl : Baseline) : Except Unit Dict :=
  match jlookup data "hrv" with
  | none => .ok []
  | some hv =>
    match dictOf hv with
    | .error e => .error e
    | .ok hf =>
      let a := jgetOrNull hf "avg"
      if truthy a then
        match qOfJ a with
        | .error e => .error e
        | .ok hq =>
          let blJ : J := match bl.baseline with
            | some b => J.num b
            | none => J.null
          let vsJ : J := match bl.baseline with
            | some b => if b ≠ 0 then J.num ((pyRound ((hq - b) / b * 100) : ℤ) : ℚ) else J.null
            | none => J.null
          .ok [("hrv", J.obj [("today", J.num (pyRound1 hq)), ("baseline", blJ),
                              ("baseline_days", J.num (bl.days : ℚ)),
                              ("vs_baseline_pct", vsJ)])]
      else .ok []

/-- The `resting_hr` (and optional `hr_zones`) block of the recovery
status. -/
def recovery_hr_fields (data : Dict) : Except Unit Dict :=
  match jlookup data "heartRate" with
  | none => .ok []
  | some hv =>
    match dictOf hv with
    | .error e => .error e
    | .ok hf =>
      match jlookup hf "hr_zones" with
      | none => .ok [("resting_hr", jgetOrNull hf "min")]
      | some hz =>
        match dictOf hz with
        | .error e => .error e
        | .ok hzf =>
          .ok [("resting_hr", jgetOrNull hf "min"), ("hr_zones", jgetOrNull hzf "zone_pct")]

/-- The `sleep` block of the recovery status. -/
def recovery_sleep_field (data : Dict) : Except Unit Dict :=
  match jlookup data "sleep" with
  | none => .ok []
  | some sv =>
    match dictOf sv with
    | .error e => .error e
    | .ok sf =>
      .ok [("sleep", J.obj [("stages", jgetOrNull sf "stages"),
                            ("fragmentation_pct", jgetOrNull sf "fragmentation_pct"),
                            ("has_deep", jgetOrNull sf "has_deep"),
                            ("has_rem", jgetOrNull sf "has_rem")])]

/-- The `respiratory_rate` block of the recovery status. -/
def recovery_resp (data : Dict) : Except Unit Dict :=
  match jlookup data "respRate" with
  | none => .ok []
  | some rv =>
    match dictOf rv with
    | .error e => .error e
    | .ok rf => .ok [("respiratory_rate", jgetOrNull rf "avg")]

/-- The `recent_days` entries: `get_day_summary` over the given offsets,
keyed `day_minus_{i}`, non-`None` summaries only. -/
def recent_day_entries (store : ℕ → Dict) : List ℕ → Except Unit Dict
  | [] => .ok []
  | i :: rest =>
    match get_day_summary (store i) with
    | .error e => .error e
    | .ok none => recent_day_entries store rest
    | .ok (some s) =>
      match recent_day_entries store rest with
      | .error e => .error e
      | .ok rs => .ok (("day_minus_" ++ toString i, J.obj s) :: rs)

/-- `tool_get_recovery_status()`.  `routine` is the parsed
`EXERCISE_DAYS_PER_WEEK` env mapping (external configuration, passed
through), `todayKey` today's date string. -/
def tool_get_recovery_status (store : ℕ → Dict) (routine : List (String × ℤ))
    (todayKey : String) : Except Unit Dict :=
  let data := store 0
  match get_hrv_baseline store 14 with
  | .error e => .error e
  | .ok bl =>
    match recovery_hrv_field data bl, recovery_hr_fields data, recovery_sleep_field data with
    | .ok f1, .ok f2, .ok f3 =>
      match summary_cumulative data "exercise" "exercise_min", recovery_resp data,
            summary_cumulative data "steps" "steps" with
      | .ok f4, .ok f5, .ok f6 =>
        match recent_day_entries store [1, 2, 3] with
        | .error e => .error e
        | .ok rd =>
          let base : Dict :=
            [("date", J.str todayKey),
             ("weekly_routine", match routine with
               | [] => J.null
               | r :: rs => J.obj ((r :: rs).map fun p => (p.1, J.num (p.2 : ℚ))))]
          .ok (base ++ f1 ++ f2 ++ f3 ++ f4 ++ f5 ++ f6 ++
            (match rd with
             | [] => []
             | e :: es => [("recent_days", J.obj (e :: es))]))
      | .error e, _, _ => .error e
      | _, .error e, _ => .error e
      | _, _, .error e => .error e
    | .error e, _, _ => .error e
    | _, .error e, _ => .error e
    | _, _, .error e => .error e

/-! ## mcp.py: handle_tool_call and the JSON-RPC method dispatch -/

/-- Result of `handle_tool_call`: one of the three tool payloads, or the
`json.dumps({"error": f"Unknown tool: \x7bname\x7d"})` string. -/
inductive ToolResult where
  | today (out : TodayOut)
  | trends (out : TrendsOut)
  | recovery (out : Dict)
  | unknownTool (text : String)

/-- The exact text `json.dumps({"error": f"Unknown tool: \x7bname\x7d"})`
produces (tool names here need no JSON string escaping). -/
def unknown_tool_text (name : String) : String :=
  "\x7b\"error\": \"Unknown tool: " ++ name ++ "\"\x7d"

/-- `handle_tool_call(name, args)`; `days` is `args.get("days", 7)`. -/
def handle_tool_call (store : ℕ → Dict) (routine : List (String × ℤ)) (todayKey : String)
    (name : String) (days : ℕ) : Except Unit ToolResult :=
  if name = "get_today" then .ok (.today (tool_get_today store))
  else if name = "get_trends" then (tool_get_trends store days).map .trends
  else if name = "get_recovery_status" then
    (tool_get_recovery_status store routine todayKey).map .recovery
  else .ok (.unknownTool (unknown_tool_text name))

/-- A JSON-RPC response body of `handler.do_POST`: one of the three
`result` shapes, or the `error` object. -/
inductive RpcResponse where
  | initResult (protocolVersion serverName serverVersion : String)
  | toolsListResult (toolNames : List String)
  | toolResult (r : ToolResult)
  | rpcError (code : ℤ) (message : String)

/-- The method dispatch of `handler.do_POST`: `initialize`, `tools/list`,
`tools/call` (with the parsed tool name and `days` argument), and the
`-32601` error for everything else. -/
def mcp_dispatch (store : ℕ → Dict) (routine : List (String × ℤ)) (todayKey : String)
    (method : String) (toolName : String) (days : ℕ) : Except Unit RpcResponse :=
  if method = "initialize" then .ok (.initResult "2024-11-05" "health" "1.0.0")
  else if method = "tools/list" then
    .ok (.toolsListResult ["get_today", "get_trends", "get_recovery_status"])
  else if method = "tools/call" then
    (handle_tool_call store routine todayKey toolName days).map .toolResult
  else .ok (.rpcError (-32601) ("Unknown method: " ++ method))

/-! ## Helper lemmas: the HR-zone fold counts by half-open interval -/

theorem foldl_bucketStep_rest (nums : List ℚ) (z : Zones) :
    (nums.foldl bucketStep z).rest = z.rest + nums.countP fun hr => decide (hr < 100) := by
  induction nums generalizing z with
  | nil => simp
  | cons hr rest ih =>
    rw [List.foldl_cons, ih]
    unfold bucketStep
    split_ifs with h1 h2 h3 h4 <;> (simp [List.countP_cons, h1]; try omega)

theorem foldl_bucketStep_light (nums : List ℚ) (z : Zones) :
    (nums.foldl bucketStep z).light
      = z.light + nums.countP fun hr => decide (100 ≤ hr ∧ hr < 120) := by
  induction nums generalizing z with
  | nil => simp
  | cons hr rest ih =>
    rw [List.foldl_cons, ih]
    unfold bucketStep
    split_ifs with h1 h2 h3 h4
    · simp [List.countP_cons, not_le.mpr h1]
    · simp [List.countP_cons, not_lt.mp h1, h2]
      omega
    · simp [List.countP_cons, h2]
    · simp [List.countP_cons, h2]
    · simp [List.countP_cons, h2]

theorem foldl_bucketStep_moderate (nums : List ℚ) (z : Zones) :
    (nums.foldl bucketStep z).moderate
      = z.moderate + nums.countP fun hr => decide (120 ≤ hr ∧ hr < 140) := by
  induction nums generalizing z with
  | nil => simp
  | cons hr rest ih =>
    rw [List.foldl_cons, ih]
    unfold bucketStep
    split_ifs with h1 h2 h3 h4
    · simp [List.countP_cons, show ¬(120:ℚ) ≤ hr from fun h => by linarith]
    · simp [List.countP_cons, not_le.mpr h2]
    · simp [List.countP_cons, not_lt.mp h2, h3]
      omega
    · simp [List.countP_cons, h3]
    · simp [List.countP_cons, h3]

theorem foldl_bucketStep_hard (nums : List ℚ) (z : Zones) :
    (nums.foldl bucketStep z).hard
      = z.hard + nums.countP fun hr => decide (140 ≤ hr ∧ hr < 160) := by
  induction nums generalizing z with
  | nil => simp
  | cons hr rest ih =>
    rw [List.foldl_cons, ih]
    unfold bucketStep
    split_ifs with h1 h2 h3 h4
    · simp [List.countP_cons, show ¬(140:ℚ) ≤ hr from fun h => by linarith]
    · simp [List.countP_cons, show ¬(140:ℚ) ≤ hr from fun h => by linarith]
    · simp [List.countP_cons, not_le.mpr h3]
    · simp [List.countP_cons, not_lt.mp h3, h4]
      omega
    · simp [List.countP_cons, h4]

theorem foldl_bucketStep_max (nums : List ℚ) (z : Zones) :
    (nums.foldl bucketStep z).max
      = z.max + nums.countP fun hr => decide (160 ≤ hr) := by
  induction nums generalizing z with
  | nil => simp
  | cons hr rest ih =>
    rw [List.foldl_cons, ih]
    unfold bucketStep
    split_ifs with h1 h2 h3 h4
    · simp [List.countP_cons, show ¬(160:ℚ) ≤ hr from fun h => by linarith]
    · simp [List.countP_cons, show ¬(160:ℚ) ≤ hr from fun h => by linarith]
    · simp [List.countP_cons, show ¬(160:ℚ) ≤ hr from fun h => by linarith]
    · simp [List.countP_cons, not_le.mpr h4]
    · simp [List.countP_cons, not_lt.mp h4]
      omega

theorem foldl_bucketStep_total (nums : List ℚ) (z : Zones) :
    (nums.foldl bucketStep z).rest + (nums.foldl bucketStep z).light
      + (nums.foldl bucketStep z).moderate + (nums.foldl bucketStep z).hard
      + (nums.foldl bucketStep z).max
      = z.rest + z.light + z.moderate + z.hard + z.max + nums.length := by
  induction nums generalizing z with
  | nil => simp
  | cons hr rest ih =>
    simp only [List.foldl_cons, List.length_cons]
    rw [ih]
    unfold bucketStep
    split_ifs <;> (simp; omega)

/-- C1: for every atom list, `compute_hr_zones` buckets each numeric
sample into exactly one half-open zone (`<100` rest, `[100,120)` light,
`[120,140)` moderate, `[140,160)` hard, `≥160` max), the five counts sum
to the number of numeric inputs, each `zone_pct` entry is
`round(count/total*100)`, `training_load = moderate + hard + max`,
`high_intensity = hard + max`, and the empty numeric input yields the
empty summary. -/
theorem hr_zones_spec (values : List Atom) :
    (numsOf values = [] → compute_hr_zones values = none) ∧
    (numsOf values ≠ [] → (compute_hr_zones values).isSome = true) ∧
    (∀ s, compute_hr_zones values = some s →
      s.zones.rest = (numsOf values).countP (fun hr => decide (hr < 100)) ∧
      s.zones.light = (numsOf values).countP (fun hr => decide (100 ≤ hr ∧ hr < 120)) ∧
      s.zones.moderate = (numsOf values).countP (fun hr => decide (120 ≤ hr ∧ hr < 140)) ∧
      s.zones.hard = (numsOf values).countP (fun hr => decide (140 ≤ hr ∧ hr < 160)) ∧
      s.zones.max = (numsOf values).countP (fun hr => decide (160 ≤ hr)) ∧
      s.zones.rest + s.zones.light + s.zones.moderate + s.zones.hard + s.zones.max
        = (numsOf values).length ∧
      s.zone_pct.rest = pyRound ((s.zones.rest : ℚ) / ((numsOf values).length : ℚ) * 100) ∧
      s.zone_pct.light = pyRound ((s.zones.light : ℚ) / ((numsOf values).length : ℚ) * 100) ∧
      s.zone_pct.moderate
        = pyRound ((s.zones.moderate : ℚ) / ((numsOf values).length : ℚ) * 100) ∧
      s.zone_pct.hard = pyRound ((s.zones.hard : ℚ) / ((numsOf values).length : ℚ) * 100) ∧
      s.zone_pct.max = pyRound ((s.zones.max : ℚ) / ((numsOf values).length : ℚ) * 100) ∧
      s.training_load = s.zones.moderate + s.zones.hard + s.zones.max ∧
      s.high_intensity = s.zones.hard + s.zones.max) := by
  refine ⟨fun h => by simp [compute_hr_zones, h], fun h => by simp [compute_hr_zones, h], ?_⟩
  intro s hs
  by_cases h : numsOf values = []
  · simp [compute_hr_zones, h] at hs
  · rw [compute_hr_zones] at hs
    simp only [h, if_false] at hs
    injection hs with hz
    subst hz
    refine ⟨by simp [foldl_bucketStep_rest], by simp [foldl_bucketStep_light],
      by simp [foldl_bucketStep_moderate], by simp [foldl_bucketStep_hard],
      by simp [foldl_bucketStep_max],
      by simpa using foldl_bucketStep_total (numsOf values) ⟨0, 0, 0, 0, 0⟩,
      rfl, rfl, rfl, rfl, rfl, rfl, rfl⟩

/-! ## Helper lemmas: the sleep-stage fold counts by classification -/

theorem foldl_sleepStep_rem (values : List Atom) (st : Stages) :
    (values.foldl sleepStep st).rem
      = st.rem + values.countP fun a => decide (classifyAtom a = some .REM) := by
  induction values generalizing st with
  | nil => simp
  | cons a rest ih =>
    rw [List.foldl_cons, ih]
    cases a with
    | num q => simp [sleepStep, classifyAtom, List.countP_cons]
    | str s =>
      simp only [sleepStep]
      split_ifs with h1 h2 h3 h4
      · simp [List.countP_cons, classifyAtom, h1]
        omega
      · rw [Bool.or_eq_true] at h2
        simp [List.countP_cons, classifyAtom, h1, h2]
      · rw [Bool.or_eq_true] at h2
        simp [List.countP_cons, classifyAtom, h1, h2, h3]
      · rw [Bool.or_eq_true] at h2
        rw [Bool.or_eq_true] at h4
        simp [List.countP_cons, classifyAtom, h1, h2, h3, h4]
      · rw [Bool.or_eq_true] at h2
        rw [Bool.or_eq_true] at h4
        simp [List.countP_cons, classifyAtom, h1, h2, h3, h4]

theorem foldl_sleepStep_core (values : List Atom) (st : Stages) :
    (values.foldl sleepStep st).core
      = st.core + values.countP fun a => decide (classifyAtom a = some .Core) := by
  induction values generalizing st with
  | nil => simp
  | cons a rest ih =>
    rw [List.foldl_cons, ih]
    cases a with
    | num q => simp [sleepStep, classifyAtom, List.countP_cons]
    | str s =>
      simp only [sleepStep]
      split_ifs with h1 h2 h3 h4
      · simp [List.countP_cons, classifyAtom, h1]
      · rw [Bool.or_eq_true] at h2
        simp [List.countP_cons, classifyAtom, h1, h2]
        omega
      · rw [Bool.or_eq_true] at h2
        simp [List.countP_cons, classifyAtom, h1, h2, h3]
      · rw [Bool.or_eq_true] at h2
        rw [Bool.or_eq_true] at h4
        simp [List.countP_cons, classifyAtom, h1, h2, h3, h4]
      · rw [Bool.or_eq_true] at h2
        rw [Bool.or_eq_true] at h4
        simp [List.countP_cons, classifyAtom, h1, h2, h3, h4]

theorem foldl_sleepStep_deep (values : List Atom) (st : Stages) :
    (values.foldl sleepStep st).deep
      = st.deep + values.countP fun a => decide (classifyAtom a = some .Deep) := by
  induction values generalizing st with
  | nil => simp
  | cons a rest ih =>
    rw [List.foldl_cons, ih]
    cases a with
    | num q => simp [sleepStep, classifyAtom, List.countP_cons]
    | str s =>
      simp only [sleepStep]
      split_ifs with h1 h2 h3 h4
      · simp [List.countP_cons, classifyAtom, h1]
      · rw [Bool.or_eq_true] at h2
        simp [List.countP_cons, classifyAtom, h1, h2]
      · rw [Bool.or_eq_true] at h2
        simp [List.countP_cons, classifyAtom, h1, h2, h3]
        omega
      · rw [Bool.or_eq_true] at h2
        rw [Bool.or_eq_true] at h4
        simp [List.countP_cons, classifyAtom, h1, h2, h3, h4]
      · rw [Bool.or_eq_true] at h2
        rw [Bool.or_eq_true] at h4
        simp [List.countP_cons, classifyAtom, h1, h2, h3, h4]

theorem foldl_sleepStep_awake (values : List Atom) (st : Stages) :
    (values.foldl sleepStep st).awake
      = st.awake + values.countP fun a => decide (classifyAtom a = some .Awake) := by
  induction values generalizing st with
  | nil => simp
  | cons a rest ih =>
    rw [List.foldl_cons, ih]
    cases a with
    | num q => simp [sleepStep, classifyAtom, List.countP_cons]
    | str s =>
      simp only [sleepStep]
      split_ifs with h1 h2 h3 h4
      · simp [List.countP_cons, classifyAtom, h1]
      · rw [Bool.or_eq_true] at h2
        simp [List.countP_cons, classifyAtom, h1, h2]
      · rw [Bool.or_eq_true] at h2
        simp [List.countP_cons, classifyAtom, h1, h2, h3]
      · rw [Bool.or_eq_true] at h2
        rw [Bool.or_eq_true] at h4
        simp [List.countP_cons, classifyAtom, h1, h2, h3, h4]
        omega
      · rw [Bool.or_eq_true] at h2
        rw [Bool.or_eq_true] at h4
        simp [List.countP_cons, classifyAtom, h1, h2, h3, h4]

theorem classified_countP (values : List Atom) :
    values.countP (fun a => decide (classifyAtom a ≠ none))
      = values.countP (fun a => decide (classifyAtom a = some .REM))
      + values.countP (fun a => decide (classifyAtom a = some .Core))
      + values.countP (fun a => decide (classifyAtom a = some .Deep))
      + values.countP (fun a => decide (classifyAtom a = some .Awake)) := by
  simp only [ne_eq, decide_not]
  induction values with
  | nil => simp
  | cons a rest ih =>
    simp only [List.countP_cons]
    cases h : classifyAtom a with
    | none => simp [h, ih]
    | some stg => cases stg <;> (simp [h, ih]; try omega)

/-- C2: for every atom list, `compute_sleep_stats` counts each atom under
the first matching stage (REM, then Core/Light, then Deep, then
Awake/Wake), ignoring unmatched and numeric atoms; with at least one
classified atom it reports `fragmentation_pct = round(awake/total*100, 1)`
and quality "good" iff `fragmentation_pct < 20` and REM and Deep both
occurred, else "fair" iff `fragmentation_pct < 35`, else "poor"; with zero
classified atoms it returns the original atom list verbatim. -/
theorem sleep_spec (values : List Atom) :
    (values.countP (fun a => decide (classifyAtom a ≠ none)) = 0 →
      compute_sleep_stats values = .values values) ∧
    (∀ st f q hr hd, compute_sleep_stats values = .stats st f q hr hd →
      st.rem = values.countP (fun a => decide (classifyAtom a = some .REM)) ∧
      st.core = values.countP (fun a => decide (classifyAtom a = some .Core)) ∧
      st.deep = values.countP (fun a => decide (classifyAtom a = some .Deep)) ∧
      st.awake = values.countP (fun a => decide (classifyAtom a = some .Awake)) ∧
      f = pyRound1 ((st.awake : ℚ) / ((st.rem + st.core + st.deep + st.awake : ℕ) : ℚ) * 100) ∧
      q = (if f < 20 ∧ 0 < st.rem ∧ 0 < st.deep then "good"
           else if f < 35 then "fair" else "poor") ∧
      hr = decide (0 < st.rem) ∧ hd = decide (0 < st.deep)) ∧
    (values.countP (fun a => decide (classifyAtom a ≠ none)) ≠ 0 →
      ∃ st f q hr hd, compute_sleep_stats values = .stats st f q hr hd) := by
  have hrem := foldl_sleepStep_rem values ⟨0, 0, 0, 0⟩
  have hcore := foldl_sleepStep_core values ⟨0, 0, 0, 0⟩
  have hdeep := foldl_sleepStep_deep values ⟨0, 0, 0, 0⟩
  have hawake := foldl_sleepStep_awake values ⟨0, 0, 0, 0⟩
  simp only [Nat.zero_add] at hrem hcore hdeep hawake
  refine ⟨?_, ?_, ?_⟩
  · intro h0
    rw [classified_countP] at h0
    have ht : (values.foldl sleepStep ⟨0, 0, 0, 0⟩).rem
        + (values.foldl sleepStep ⟨0, 0, 0, 0⟩).core
        + (values.foldl sleepStep ⟨0, 0, 0, 0⟩).deep
        + (values.foldl sleepStep ⟨0, 0, 0, 0⟩).awake = 0 := by
      rw [hrem, hcore, hdeep, hawake]; omega
    rw [compute_sleep_stats]
    simp [ht]
  · intro st f q hr hd h
    rw [compute_sleep_stats] at h
    by_cases ht : (values.foldl sleepStep ⟨0, 0, 0, 0⟩).rem
        + (values.foldl sleepStep ⟨0, 0, 0, 0⟩).core
        + (values.foldl sleepStep ⟨0, 0, 0, 0⟩).deep
        + (values.foldl sleepStep ⟨0, 0, 0, 0⟩).awake = 0
    · simp [ht] at h
    · simp only [ht, if_false] at h
      injection h with e1 e2 e3 e4 e5
      subst e1
      subst e2
      subst e3
      subst e4
      subst e5
      exact ⟨hrem, hcore, hdeep, hawake, rfl, rfl, rfl, rfl⟩
  · intro h0
    rw [classified_countP] at h0
    have ht : ¬((values.foldl sleepStep ⟨0, 0, 0, 0⟩).rem
        + (values.foldl sleepStep ⟨0, 0, 0, 0⟩).core
        + (values.foldl sleepStep ⟨0, 0, 0, 0⟩).deep
        + (values.foldl sleepStep ⟨0, 0, 0, 0⟩).awake = 0) := by
      rw [hrem, hcore, hdeep, hawake]; omega
    rw [compute_sleep_stats]
    simp only [ht, if_false]
    refine ⟨_, _, _, _, _, rfl⟩

theorem numsOf_map_num (l : List ℚ) : numsOf (l.map Atom.num) = l := by
  unfold numsOf
  induction l with
  | nil => rfl
  | cons q rest ih => simpa using ih

theorem compute_hr_zones_of_nums (values : List Atom) :
    compute_hr_zones ((numsOf values).map Atom.num) = compute_hr_zones values := by
  rw [compute_hr_zones, compute_hr_zones, numsOf_map_num]

/-- C7: `compute_stats` dispatches on the lower-cased trimmed metric name:
"sleep" goes to the sleep reducer regardless of atom types; otherwise the
atoms are filtered to numeric ones — none left gives the degenerate
`{count: total_atom_count}`, else `{avg, min, max, count}` over the
numeric atoms with `avg`/`min`/`max` rounded to 2 decimals, and an
`hr_zones` sub-summary (the HR-zone reducer on the same numeric atoms)
attached exactly when the name is "heartrate". -/
theorem compute_stats_spec (values : List Atom) (key : String) :
    (pyStrip (pyLower key.data) = "sleep".data →
      compute_stats values key = .sleepRes (compute_sleep_stats values)) ∧
    (pyStrip (pyLower key.data) ≠ "sleep".data → numsOf values = [] →
      compute_stats values key = .degenerate values.length) ∧
    (pyStrip (pyLower key.data) ≠ "sleep".data → numsOf values ≠ [] →
      compute_stats values key =
        .numeric (pyRound2 ((numsOf values).sum / ((numsOf values).length : ℚ)))
          (pyRound2 (listMin (numsOf values))) (pyRound2 (listMax (numsOf values)))
          (numsOf values).length
          (if pyStrip (pyLower key.data) = "heartrate".data
           then some (compute_hr_zones values) else none)) := by
  refine ⟨?_, ?_, ?_⟩
  · intro h
    rw [compute_stats]
    simp [h]
  · intro h h2
    rw [compute_stats]
    simp [h, h2]
  · intro h h2
    rw [compute_stats]
    simp only [h, if_false, h2, compute_hr_zones_of_nums]

/-! ## Helper lemmas: dict lookup -/

theorem jlookup_cons (k' : String) (v : J) (d : Dict) (k : String) :
    jlookup ((k', v) :: d) k = if k' == k then some v else jlookup d k := by
  by_cases h : (k' == k) = true
  · have hf : List.find? (fun p => p.1 == k) ((k', v) :: d) = some (k', v) :=
      List.find?_cons_of_pos _ h
    simp [jlookup, hf, h]
  · have hf : List.find? (fun p => p.1 == k) ((k', v) :: d) = List.find? (fun p => p.1 == k) d :=
      List.find?_cons_of_neg _ h
    simp [jlookup, hf, h]

/-- C3: the cumulative-total extraction treats the new shape
`{total: t}` and the old shape `{avg: a, count: c}` alike: the former
extracts to `t`, the latter to `round(a*c)`; in particular
`{total: 5000}` and `{avg: 500, count: 10}` both extract to 5000. -/
theorem cumulative_shapes (k : String) (t : J) (a c : ℚ) :
    get_cumulative_value [(k, J.obj [("total", t)])] k = .ok t ∧
    get_cumulative_value [(k, J.obj [("avg", J.num a), ("count", J.num c)])] k
      = .ok (J.num (pyRound (a * c))) ∧
    get_cumulative_value [("steps", J.obj [("total", J.num 5000)])] "steps"
      = .ok (J.num 5000) ∧
    get_cumulative_value [("steps", J.obj [("avg", J.num 500), ("count", J.num 10)])] "steps"
      = .ok (J.num 5000) := by
  refine ⟨?_, ?_, by rfl, ?_⟩
  · simp [get_cumulative_value, jlookup, truthy]
  · simp [get_cumulative_value, jlookup, truthy, qOfJ]
  · have h : pyRound ((500 : ℚ) * 10) = 5000 := by unfold pyRound; norm_num
    simp [get_cumulative_value, jlookup, truthy, qOfJ, h]

/-- C10 (implicit): when a stored summary carries both a `total` field and
`avg`/`count` fields, cumulative extraction returns `total` unchanged and
never reconstructs `round(avg*count)`; the old-shape reconstruction runs
only when `total` is absent, and a non-empty summary carrying neither
shape extracts to 0. -/
theorem cumulative_total_precedence (data : Dict) (k : String) (fields : Dict)
    (hm : jlookup data k = some (J.obj fields)) :
    (∀ t, jlookup fields "total" = some t → get_cumulative_value data k = .ok t) ∧
    (jlookup fields "total" = none →
      ∀ a c : ℚ, jlookup fields "avg" = some (J.num a) →
        jlookup fields "count" = some (J.num c) →
        get_cumulative_value data k = .ok (J.num (pyRound (a * c)))) ∧
    (fields ≠ [] → jlookup fields "total" = none →
      (jlookup fields "avg" = none ∨ jlookup fields "count" = none) →
      get_cumulative_value data k = .ok (J.num 0)) := by
  refine ⟨?_, ?_, ?_⟩
  · intro t ht
    have hne : fields ≠ [] := by
      intro h
      subst h
      simp [jlookup] at ht
    obtain ⟨p, ps, rfl⟩ : ∃ p ps, fields = p :: ps := by
      cases fields with
      | nil => exact absurd rfl hne
      | cons p ps => exact ⟨p, ps, rfl⟩
    rw [get_cumulative_value]
    simp [hm, truthy, ht]
  · intro ht a c ha hc
    have hne : fields ≠ [] := by
      intro h
      subst h
      simp [jlookup] at ha
    obtain ⟨p, ps, rfl⟩ : ∃ p ps, fields = p :: ps := by
      cases fields with
      | nil => exact absurd rfl hne
      | cons p ps => exact ⟨p, ps, rfl⟩
    rw [get_cumulative_value]
    simp [hm, truthy, ht, ha, hc, qOfJ]
  · intro hne ht hac
    obtain ⟨p, ps, rfl⟩ : ∃ p ps, fields = p :: ps := by
      cases fields with
      | nil => exact absurd rfl hne
      | cons p ps => exact ⟨p, ps, rfl⟩
    rw [get_cumulative_value]
    rcases hac with h | h
    · cases hc : jlookup (p :: ps) "count" with
      | none => simp [hm, truthy, ht, h, hc]
      | some v => simp [hm, truthy, ht, h, hc]
    · cases ha : jlookup (p :: ps) "avg" with
      | none => simp [hm, truthy, ht, h, ha]
      | some v => simp [hm, truthy, ht, h, ha]

/-- C10 witness. -/
theorem cumulative_total_precedence_witness :
    get_cumulative_value
        [("steps", J.obj [("total", J.num 7), ("avg", J.num 500), ("count", J.num 10)])]
        "steps" = .ok (J.num 7) :=
  (cumulative_total_precedence
    [("steps", J.obj [("total", J.num 7), ("avg", J.num 500), ("count", J.num 10)])]
    "steps" [("total", J.num 7), ("avg", J.num 500), ("count", J.num 10)] rfl).1
    (J.num 7) rfl

/-- C8: an unknown top-level JSON-RPC method yields the JSON-RPC error
object with code -32601, while an unknown tool name inside `tools/call`
yields a normal (non-error) result whose text payload is the string
`json.dumps({"error": f"Unknown tool: ..."})`; the two cases are distinct
response constructors and are never conflated. -/
theorem rpc_unknown_dispatch (store : ℕ → Dict) (routine : List (String × ℤ))
    (todayKey method name : String) (days : ℕ)
    (hm : method ≠ "initialize" ∧ method ≠ "tools/list" ∧ method ≠ "tools/call")
    (hn : name ≠ "get_today" ∧ name ≠ "get_trends" ∧ name ≠ "get_recovery_status") :
    mcp_dispatch store routine todayKey method name days
      = .ok (.rpcError (-32601) ("Unknown method: " ++ method)) ∧
    mcp_dispatch store routine todayKey "tools/call" name days
      = .ok (.toolResult (.unknownTool
          ("\x7b\"error\": \"Unknown tool: " ++ name ++ "\"\x7d"))) ∧
    (∀ code msg r, RpcResponse.rpcError code msg ≠ RpcResponse.toolResult r) := by
  obtain ⟨hm1, hm2, hm3⟩ := hm
  obtain ⟨hn1, hn2, hn3⟩ := hn
  refine ⟨?_, ?_, fun code msg r h => RpcResponse.noConfusion h⟩
  · simp [mcp_dispatch, hm1, hm2, hm3]
  · simp [mcp_dispatch, handle_tool_call, unknown_tool_text, Except.map, hn1, hn2, hn3]

/-- C8 witness: a concrete unknown method and unknown tool name. -/
theorem rpc_unknown_dispatch_witness :
    mcp_dispatch (fun _ => []) [] "2025-01-01" "foo" "bar" 7
      = .ok (.rpcError (-32601) "Unknown method: foo") ∧
    mcp_dispatch (fun _ => []) [] "2025-01-01" "tools/call" "bar" 7
      = .ok (.toolResult (.unknownTool "\x7b\"error\": \"Unknown tool: bar\"\x7d")) := by
  have h := rpc_unknown_dispatch (fun _ => []) [] "2025-01-01" "foo" "bar" 7
    ⟨by decide, by decide, by decide⟩ ⟨by decide, by decide, by decide⟩
  exact ⟨h.1, h.2.1⟩

/-! ## Helper lemmas: the shape of the extraction outputs -/

theorem trend_day_sleep_shape (data d r : Dict) (h : trend_day_sleep data d = .ok r) :
    r = d ∨ ∃ v, r = d ++ [("sleep", v)] := by
  rw [trend_day_sleep] at h
  cases h1 : jlookup data "sleep" with
  | none =>
    simp only [h1] at h
    injection h with h
    exact .inl h.symm
  | some sv =>
    simp only [h1] at h
    cases h2 : dictOf sv with
    | error e => simp [h2] at h
    | ok slD =>
      simp only [h2] at h
      injection h with h
      exact .inr ⟨_, h.symm⟩

theorem trend_day_shape (d : Dict) (dd : Dict) (h : trend_day d = .ok dd) :
    ∃ hrvD hrD ex st,
      dictGet d "hrv" = .ok hrvD ∧ dictGet d "heartRate" = .ok hrD ∧
      get_cumulative_value d "exercise" = .ok ex ∧
      get_cumulative_value d "steps" = .ok st ∧
      ∃ zs sl, (zs = [] ∨ ∃ v, zs = [("hr_zones", v)]) ∧
        (sl = [] ∨ ∃ v, sl = [("sleep", v)]) ∧
        dd = [("hrv", jgetOrNull hrvD "avg"), ("resting_hr", jgetOrNull hrD "min"),
              ("exercise_min", ex), ("steps", st)] ++ zs ++ sl := by
  rw [trend_day] at h
  cases h1 : dictGet d "hrv" with
  | error e => simp [h1] at h
  | ok hrvD =>
    cases h2 : dictGet d "heartRate" with
    | error e => simp [h1, h2] at h
    | ok hrD =>
      simp only [h1, h2] at h
      cases h3 : get_cumulative_value d "exercise" with
      | error e => simp [h3] at h
      | ok ex =>
        cases h4 : get_cumulative_value d "steps" with
        | error e => simp [h3, h4] at h
        | ok st =>
          simp only [h3, h4] at h
          refine ⟨hrvD, hrD, ex, st, rfl, rfl, rfl, rfl, ?_⟩
          by_cases hcond : ((jlookup d "heartRate").isSome
              && (jlookup hrD "hr_zones").isSome) = true
          · rw [if_pos hcond] at h
            cases h5 : dictOf (jgetOrNull hrD "hr_zones") with
            | error e => simp [h5] at h
            | ok hzD =>
              simp only [h5] at h
              rcases trend_day_sleep_shape _ _ _ h with rfl | ⟨v, rfl⟩
              · exact ⟨[("hr_zones", jgetOrNull hzD "zone_pct")], [],
                  .inr ⟨_, rfl⟩, .inl rfl, by simp⟩
              · exact ⟨[("hr_zones", jgetOrNull hzD "zone_pct")], [("sleep", v)],
                  .inr ⟨_, rfl⟩, .inr ⟨_, rfl⟩, by simp⟩
          · rw [if_neg hcond] at h
            rcases trend_day_sleep_shape _ _ _ h with rfl | ⟨v, rfl⟩
            · exact ⟨[], [], .inl rfl, .inl rfl, by simp⟩
            · exact ⟨[], [("sleep", v)], .inl rfl, .inr ⟨_, rfl⟩, by simp⟩

theorem trend_day_fields (d dd : Dict) (h : trend_day d = .ok dd) (k : String)
    (h1 : k ≠ "hrv") (h2 : k ≠ "resting_hr") (h3 : k ≠ "exercise_min") (h4 : k ≠ "steps")
    (h5 : k ≠ "hr_zones") (h6 : k ≠ "sleep") : jlookup dd k = none := by
  obtain ⟨hrvD, hrD, ex, st, _, _, _, _, zs, sl, hzs, hsl, rfl⟩ := trend_day_shape d dd h
  rcases hzs with rfl | ⟨v, rfl⟩ <;> rcases hsl with rfl | ⟨w, rfl⟩ <;>
    simp [jlookup_cons, Ne.symm h1, Ne.symm h2, Ne.symm h3, Ne.symm h4, Ne.symm h5,
      Ne.symm h6, jlookup]

/-- C4 counterexample: the code probes only the canonical `"exercise"`
key, so a snapshot keyed `"exercise "` (trailing space) is not picked up —
its trend row carries `exercise_min = 0` where the canonical-key snapshot
carries 30. -/
theorem exercise_space_key_cex :
    trend_day [("exercise ", J.obj [("total", J.num 30)])]
      = .ok [("hrv", J.null), ("resting_hr", J.null), ("exercise_min", J.num 0),
             ("steps", J.num 0)] ∧
    trend_day [("exercise", J.obj [("total", J.num 30)])]
      = .ok [("hrv", J.null), ("resting_hr", J.null), ("exercise_min", J.num 30),
             ("steps", J.num 0)] :=
  ⟨rfl, rfl⟩

/-- C4 amended: `exercise_min` extraction probes only the canonical key
`"exercise"` (no trailing-space probe exists): a snapshot with no
`"exercise"` key — in particular one whose summary sits under
`"exercise "` — yields `exercise_min = 0` in trend rows, and no
`exercise_min` field at all in day summaries. -/
theorem exercise_canonical_key_only (d : Dict) (hno : jlookup d "exercise" = none) :
    get_cumulative_value d "exercise" = .ok (J.num 0) ∧
    (∀ dd, trend_day d = .ok dd → jlookup dd "exercise_min" = some (J.num 0)) ∧
    summary_cumulative d "exercise" "exercise_min" = .ok [] := by
  have hgcv : get_cumulative_value d "exercise" = .ok (J.num 0) := by
    rw [get_cumulative_value]
    simp [hno, truthy]
  refine ⟨hgcv, ?_, by simp [summary_cumulative, hno]⟩
  intro dd h
  obtain ⟨hrvD, hrD, ex, st, _, _, hex, _, zs, sl, hzs, hsl, rfl⟩ := trend_day_shape d dd h
  rw [hgcv] at hex
  injection hex with hex
  subst hex
  simp [jlookup_cons]

/-- C4 witness: the space-suffixed snapshot extracts `exercise_min = 0`. -/
theorem exercise_canonical_key_only_witness :
    get_cumulative_value [("exercise ", J.obj [("total", J.num 30)])] "exercise"
      = .ok (J.num 0) :=
  (exercise_canonical_key_only [("exercise ", J.obj [("total", J.num 30)])] rfl).1

theorem day_summary_hrv_shape (d : Dict) (r : Dict) (h : day_summary_hrv d = .ok r) :
    r = [] ∨ ∃ v, r = [("hrv", v)] := by
  rw [day_summary_hrv] at h
  cases h1 : jlookup d "hrv" with
  | none =>
    simp only [h1] at h
    injection h with h
    exact .inl h.symm
  | some hv =>
    simp only [h1] at h
    cases h2 : dictOf hv with
    | error e => simp [h2] at h
    | ok hf =>
      simp only [h2] at h
      by_cases h3 : truthy (jgetOrNull hf "avg") = true
      · rw [if_pos h3] at h
        cases h4 : qOfJ (jgetOrNull hf "avg") with
        | error e => simp [h4] at h
        | ok q =>
          simp only [h4] at h
          injection h with h
          exact .inr ⟨_, h.symm⟩
      · rw [if_neg h3] at h
        injection h with h
        exact .inl h.symm

theorem day_summary_zones_shape (d : Dict) (r : Dict) (h : day_summary_zones d = .ok r) :
    r = [] ∨ ∃ v, r = [("hr_zones", v)] := by
  rw [day_summary_zones] at h
  cases h1 : jlookup d "heartRate" with
  | none =>
    simp only [h1] at h
    injection h with h
    exact .inl h.symm
  | some hv =>
    simp only [h1] at h
    cases h2 : dictOf hv with
    | error e => simp [h2] at h
    | ok hf =>
      simp only [h2] at h
      cases h3 : jlookup hf "hr_zones" with
      | none =>
        simp only [h3] at h
        injection h with h
        exact .inl h.symm
      | some hz =>
        simp only [h3] at h
        cases h4 : dictOf hz with
        | error e => simp [h4] at h
        | ok hzf =>
          simp only [h4] at h
          injection h with h
          exact .inr ⟨_, h.symm⟩

theorem summary_cumulative_shape (d : Dict) (sk outK : String) (r : Dict)
    (h : summary_cumulative d sk outK = .ok r) : r = [] ∨ ∃ v, r = [(outK, v)] := by
  rw [summary_cumulative] at h
  by_cases h1 : (jlookup d sk).isSome = true
  · rw [if_pos h1] at h
    cases h2 : get_cumulative_value d sk with
    | error e => simp [h2] at h
    | ok v =>
      simp only [h2] at h
      injection h with h
      exact .inr ⟨_, h.symm⟩
  · rw [if_neg h1] at h
    injection h with h
    exact .inl h.symm

theorem get_day_summary_shape (d : Dict) (s : Dict) (h : get_day_summary d = .ok (some s)) :
    ∃ s1 s2 s3, (s1 = [] ∨ ∃ v, s1 = [("hrv", v)]) ∧
      (s2 = [] ∨ ∃ v, s2 = [("hr_zones", v)]) ∧
      (s3 = [] ∨ ∃ v, s3 = [("exercise_min", v)]) ∧ s = s1 ++ s2 ++ s3 := by
  rw [get_day_summary.eq_def] at h
  cases d with
  | nil => simp at h
  | cons p ps =>
    cases h1 : day_summary_hrv (p :: ps) with
    | error e => simp [h1] at h
    | ok s1 =>
      cases h2 : day_summary_zones (p :: ps) with
      | error e => simp [h1, h2] at h
      | ok s2 =>
        cases h3 : summary_cumulative (p :: ps) "exercise" "exercise_min" with
        | error e => simp [h1, h2, h3] at h
        | ok s3 =>
          simp only [h1, h2, h3] at h
          refine ⟨s1, s2, s3, day_summary_hrv_shape _ _ h1, day_summary_zones_shape _ _ h2,
            summary_cumulative_shape _ _ _ _ h3, ?_⟩
          cases hc : s1 ++ s2 ++ s3 with
          | nil => rw [hc] at h; simp at h
          | cons q qs =>
            rw [hc] at h
            simp only at h
            injection h with h
            injection h with h
            exact h.symm

theorem day_summary_fields (d : Dict) (s : Dict) (h : get_day_summary d = .ok (some s))
    (k : String) (h1 : k ≠ "hrv") (h2 : k ≠ "hr_zones") (h3 : k ≠ "exercise_min") :
    jlookup s k = none := by
  obtain ⟨s1, s2, s3, hs1, hs2, hs3, rfl⟩ := get_day_summary_shape d s h
  rcases hs1 with rfl | ⟨v1, rfl⟩ <;> rcases hs2 with rfl | ⟨v2, rfl⟩ <;>
    rcases hs3 with rfl | ⟨v3, rfl⟩ <;>
    simp [jlookup_cons, Ne.symm h1, Ne.symm h2, Ne.symm h3, jlookup]

/-- C9 counterexample: a snapshot holding `activeEnergy` and `mindful`
summaries produces a trend row with no `active_calories` or `mindful_min`
field (only the four fixed fields, zeroed), and a day summary of `None`:
the canonical extraction never reads those metrics. -/
theorem active_mindful_cex :
    trend_day [("activeEnergy", J.obj [("total", J.num 300)]),
               ("mindful", J.obj [("total", J.num 10)])]
      = .ok [("hrv", J.null), ("resting_hr", J.null), ("exercise_min", J.num 0),
             ("steps", J.num 0)] ∧
    jlookup [("hrv", J.null), ("resting_hr", J.null), ("exercise_min", J.num 0),
             ("steps", J.num 0)] "active_calories" = none ∧
    jlookup [("hrv", J.null), ("resting_hr", J.null), ("exercise_min", J.num 0),
             ("steps", J.num 0)] "mindful_min" = none ∧
    get_day_summary [("activeEnergy", J.obj [("total", J.num 300)]),
                     ("mindful", J.obj [("total", J.num 10)])]
      = .ok none :=
  ⟨rfl, rfl, rfl, rfl⟩

/-- C9 amended: no extraction populates `active_calories` or
`mindful_min`: trend rows only ever carry `hrv`, `resting_hr`,
`exercise_min`, `steps`, `hr_zones`, `sleep`, and day summaries only
`hrv`, `hr_zones`, `exercise_min`; `activeEnergy` and `mindful` snapshot
entries are ignored by both extractions. -/
theorem no_active_calories_or_mindful (d : Dict) :
    (∀ dd, trend_day d = .ok dd →
      jlookup dd "active_calories" = none ∧ jlookup dd "mindful_min" = none) ∧
    (∀ s, get_day_summary d = .ok (some s) →
      jlookup s "active_calories" = none ∧ jlookup s "mindful_min" = none) := by
  constructor
  · intro dd h
    exact ⟨trend_day_fields d dd h _ (by decide) (by decide) (by decide) (by decide)
        (by decide) (by decide),
      trend_day_fields d dd h _ (by decide) (by decide) (by decide) (by decide)
        (by decide) (by decide)⟩
  · intro s h
    exact ⟨day_summary_fields d s h _ (by decide) (by decide) (by decide),
      day_summary_fields d s h _ (by decide) (by decide) (by decide)⟩

/-- C9 witness: the amended theorem applied to the `activeEnergy`/`mindful`
snapshot. -/
theorem no_active_calories_or_mindful_witness :
    jlookup [("hrv", J.null), ("resting_hr", J.null), ("exercise_min", J.num 0),
             ("steps", J.num 0)] "active_calories" = none ∧
    jlookup [("hrv", J.null), ("resting_hr", J.null), ("exercise_min", J.num 0),
             ("steps", J.num 0)] "mindful_min" = none :=
  (no_active_calories_or_mindful
    [("activeEnergy", J.obj [("total", J.num 300)]),
     ("mindful", J.obj [("total", J.num 10)])]).1
    [("hrv", J.null), ("resting_hr", J.null), ("exercise_min", J.num 0), ("steps", J.num 0)]
    rfl

/-! ## Helper lemmas: trend-table inclusion -/

theorem collect_trend_rows_keys (store : ℕ → Dict) (idxs : List ℕ)
    (rows : List (ℕ × Dict)) (h : collect_trend_rows store idxs = .ok rows) :
    rows.map Prod.fst = idxs.filter fun i => !(store i).isEmpty := by
  induction idxs generalizing rows with
  | nil =>
    rw [collect_trend_rows] at h
    injection h with h
    subst h
    simp
  | cons i rest ih =>
    rw [collect_trend_rows] at h
    cases hs : store i with
    | nil =>
      rw [hs] at h
      rw [ih rows h, List.filter_cons]
      simp [hs]
    | cons p ps =>
      rw [hs] at h
      cases h1 : trend_day (p :: ps) with
      | error e => simp [h1] at h
      | ok dd =>
        simp only [h1] at h
        cases h2 : collect_trend_rows store rest with
        | error e => simp [h2] at h
        | ok rs =>
          simp only [h2] at h
          injection h with h
          subst h
          rw [List.filter_cons]
          simp [hs, ih rs h2]

/-- C6 counterexample: a snapshot holding only the `_updated` timestamp
(zero canonical metric fields) is still included in the trend table — the
code checks only that the snapshot dict is non-empty — instead of being
treated as absent and yielding the no-data payload. -/
theorem trends_updated_only_cex :
    tool_get_trends (fun _ => [("_updated", J.str "t")]) 1
      = .ok (.table [(0, [("hrv", J.null), ("resting_hr", J.null),
          ("exercise_min", J.num 0), ("steps", J.num 0)])]) ∧
    tool_get_trends (fun _ => [("_updated", J.str "t")]) 1 ≠ .ok (.noData 1) := by
  refine ⟨rfl, ?_⟩
  intro hcontra
  rw [(rfl : tool_get_trends (fun _ => [("_updated", J.str "t")]) 1
      = .ok (.table [(0, [("hrv", J.null), ("resting_hr", J.null),
          ("exercise_min", J.num 0), ("steps", J.num 0)])]))] at hcontra
  injection hcontra with hcontra
  exact TrendsOut.noConfusion hcontra

/-- C6 amended: `tool_get_trends` includes a date exactly when that date's
snapshot is a non-empty mapping (a snapshot whose extraction populates
zero canonical fields is still included, with null/0 values); only when
every snapshot in the window is missing or empty does it return the
distinct "no data for last N days" payload instead of an empty table. -/
theorem trends_inclusion (store : ℕ → Dict) (days : ℕ) (out : TrendsOut)
    (h : tool_get_trends store days = .ok out) :
    ((∀ i, i < days → store i = []) → out = .noData days) ∧
    (∀ rows, out = .table rows →
      rows ≠ [] ∧ rows.map Prod.fst = (List.range days).filter fun i => !(store i).isEmpty) ∧
    ((∃ i, i < days ∧ store i ≠ []) → ∃ rows, out = .table rows ∧
      rows.map Prod.fst = (List.range days).filter fun i => !(store i).isEmpty) := by
  rw [tool_get_trends] at h
  cases hc : collect_trend_rows store (List.range days) with
  | error e => simp [hc] at h
  | ok rows =>
    simp only [hc] at h
    have hk := collect_trend_rows_keys store (List.range days) rows hc
    refine ⟨?_, ?_, ?_⟩
    · intro hall
      have hfil : ((List.range days).filter fun i => !(store i).isEmpty) = [] := by
        apply List.filter_eq_nil_iff.mpr
        intro i hi
        simp [hall i (List.mem_range.mp hi)]
      have : rows.map Prod.fst = [] := by rw [hk, hfil]
      have hrows : rows = [] := List.map_eq_nil_iff.mp this
      subst hrows
      simp only at h
      injection h with h
      exact h.symm
    · intro rows2 hout
      cases rows with
      | nil =>
        simp only at h
        injection h with h
        rw [← h] at hout
        exact absurd hout (fun hx => TrendsOut.noConfusion hx)
      | cons r rs =>
        simp only at h
        injection h with h
        rw [← h] at hout
        injection hout with hout
        subst hout
        exact ⟨List.cons_ne_nil r rs, hk⟩
    · intro ⟨i, hi, hne⟩
      have hmem : i ∈ (List.range days).filter fun j => !(store j).isEmpty := by
        refine List.mem_filter.mpr ⟨List.mem_range.mpr hi, ?_⟩
        simp [List.isEmpty_iff, hne]
      cases rows with
      | nil =>
        rw [← hk] at hmem
        simp at hmem
      | cons r rs =>
        simp only at h
        injection h with h
        exact ⟨r :: rs, h.symm, hk⟩

/-- C6 witness: a two-day window where only day 1 has (non-empty) data
yields a one-row table for that date. -/
theorem trends_inclusion_witness :
    ∃ rows, TrendsOut.table [(1, [("hrv", J.null), ("resting_hr", J.null),
        ("exercise_min", J.num 0), ("steps", J.num 0)])] = .table rows ∧
      rows.map Prod.fst
        = (List.range 2).filter fun i =>
            !((fun j => if j = 1 then [("x", J.null)] else []) i : Dict).isEmpty := by
  refine (trends_inclusion (fun j => if j = 1 then [("x", J.null)] else []) 2
    (.table [(1, [("hrv", J.null), ("resting_hr", J.null),
        ("exercise_min", J.num 0), ("steps", J.num 0)])]) rfl).2.2 ⟨1, ?_, ?_⟩
  · decide
  · simp

/-! ## Helper lemmas: the HRV baseline collection -/

theorem collect_hrv_congr (store store2 : ℕ → Dict) (idxs : List ℕ)
    (hagree : ∀ i ∈ idxs, store i = store2 i) :
    collect_hrv store idxs = collect_hrv store2 idxs := by
  induction idxs with
  | nil => rfl
  | cons i rest ih =>
    rw [collect_hrv, collect_hrv, hagree i (List.mem_cons_self i rest),
      ih fun j hj => hagree j (List.mem_cons_of_mem i hj)]

theorem hrvStepValue_eq_hrvAvgOf (data : Dict)
    (hwf : ∀ v, jlookup data "hrv" = some v → ∃ f, v = J.obj f) :
    hrvStepValue data = .ok (hrvAvgOf data) := by
  rw [hrvStepValue.eq_def, hrvAvgOf.eq_def]
  cases data with
  | nil => rfl
  | cons p ps =>
    cases hl : jlookup (p :: ps) "hrv" with
    | none => rfl
    | some hv =>
      obtain ⟨f, rfl⟩ := hwf hv hl
      rfl

theorem collect_hrv_eq_filterMap (store : ℕ → Dict) (idxs : List ℕ)
    (hwf : ∀ i ∈ idxs, ∀ v, jlookup (store i) "hrv" = some v → ∃ f, v = J.obj f) :
    collect_hrv store idxs = .ok (idxs.filterMap fun i => hrvAvgOf (store i)) := by
  induction idxs with
  | nil => rfl
  | cons i rest ih =>
    rw [collect_hrv]
    have hstep := hrvStepValue_eq_hrvAvgOf (store i) (hwf i (List.mem_cons_self i rest))
    have hrest := ih fun j hj => hwf j (List.mem_cons_of_mem i hj)
    rw [hstep, List.filterMap_cons]
    cases ha : hrvAvgOf (store i) with
    | none => simpa using hrest
    | some a => simp [hrest]

theorem qListOf_map_num (qs : List ℚ) : qListOf (qs.map J.num) = .ok qs := by
  induction qs with
  | nil => rfl
  | cons q rest ih =>
    rw [List.map_cons, qListOf, qOfJ, ih]

/-- C5: `get_hrv_baseline(d)` reads only the `d` days strictly before
today (offsets `1 .. d`); over that window it collects exactly the truthy
`hrv.avg` values (on well-formed snapshots); if none are found it returns
`{baseline: None, days: 0}`, otherwise the arithmetic mean of the found
values rounded to 1 decimal with `days` = the count actually found, which
can be smaller than `d`. -/
theorem hrv_baseline_spec (store store2 : ℕ → Dict) (d : ℕ)
    (hagree : ∀ i ∈ (List.range d).map (· + 1), store i = store2 i)
    (hwf : ∀ i ∈ (List.range d).map (· + 1),
      ∀ v, jlookup (store i) "hrv" = some v → ∃ f, v = J.obj f) :
    get_hrv_baseline store d = get_hrv_baseline store2 d ∧
    (((List.range d).map (· + 1)).filterMap (fun i => hrvAvgOf (store i)) = [] →
      get_hrv_baseline store d = .ok ⟨none, 0⟩) ∧
    (∀ qs : List ℚ,
      ((List.range d).map (· + 1)).filterMap (fun i => hrvAvgOf (store i)) = qs.map J.num →
      qs ≠ [] →
      get_hrv_baseline store d
        = .ok ⟨some (pyRound1 (qs.sum / (qs.length : ℚ))), qs.length⟩) := by
  have hcol := collect_hrv_eq_filterMap store ((List.range d).map (· + 1)) hwf
  refine ⟨?_, ?_, ?_⟩
  · rw [get_hrv_baseline, get_hrv_baseline,
      collect_hrv_congr store store2 ((List.range d).map (· + 1)) hagree]
  · intro hnil
    rw [get_hrv_baseline, hcol, hnil]
  · intro qs hqs hne
    rw [get_hrv_baseline, hcol, hqs]
    cases qs with
    | nil => exact absurd rfl hne
    | cons q rest =>
      rw [List.map_cons]
      simp only
      rw [← List.map_cons, qListOf_map_num]
      simp

/-- C5 witness: a 14-day window in which only offsets 1, 2, 3 carry valid
HRV averages (40, 50, 60) gives `days = 3` and `baseline = 50`, the mean
of the three values found. -/
theorem hrv_baseline_spec_witness :
    get_hrv_baseline
        (fun j => if j = 1 then [("hrv", J.obj [("avg", J.num 40)])]
          else if j = 2 then [("hrv", J.obj [("avg", J.num 50)])]
          else if j = 3 then [("hrv", J.obj [("avg", J.num 60)])]
          else []) 14
      = .ok ⟨some 50, 3⟩ := by
  have h := (hrv_baseline_spec
    (fun j => if j = 1 then [("hrv", J.obj [("avg", J.num 40)])]
      else if j = 2 then [("hrv", J.obj [("avg", J.num 50)])]
      else if j = 3 then [("hrv", J.obj [("avg", J.num 60)])]
      else [])
    (fun j => if j = 1 then [("hrv", J.obj [("avg", J.num 40)])]
      else if j = 2 then [("hrv", J.obj [("avg", J.num 50)])]
      else if j = 3 then [("hrv", J.obj [("avg", J.num 60)])]
      else []) 14 (fun i _ => rfl) ?hwf).2.2 [40, 50, 60] rfl (by simp)
  case hwf =>
    intro i hi v hv
    fin_cases hi <;> simp [jlookup] at hv <;> exact ⟨_, hv.symm⟩
  rw [h]
  have : pyRound1 (((40 : ℚ) + (50 + 60)) / 3) = 50 := by
    unfold pyRound1 pyRound
    norm_num
  simp [this]

end HealthMCP
